import Mathlib

/-!
Verification development for the frogberry event-driven orchestration core.

The definitions below are a shallow embedding of the TypeScript sources:

* `src/engine.ts` — the `Engine` class: `run`, `stop`, and the supervised
  task loops (`runExecutor` / `runStrategy` / `runCollector`, which share
  one iteration structure).
* `src/unnamed/part_001` (`BlockCollector`), `src/unnamed/part_002`
  (`BlockCollectorBun`), `src/unnamed/part_003` (worker `sendBlock`),
  `src/unnamed/part_004` (`IntervalCollectorBun`) — block-number filtering
  and the buffered async-iterator stream state machine.
* The `BroadcastChannel` implementation is imported by `src/engine.ts` but
  its source file is not part of the sources at hand; it is modelled from
  the specification text (see `Chan` namespace).

Machine integers do not overflow in the modelled code paths (Nat counters
and millisecond durations), so counters are modelled as `Nat`.
-/

namespace Frogberry

/-- Engine configuration, from `EngineConfig` in `src/engine.ts` (only the
fields the supervised loops and lifecycle consult). -/
structure EngineConfig where
  maxConsecutiveErrors : Nat
  initialBackoffMs : Nat
  maxBackoffMs : Nat
  stopOnCriticalError : Bool
  deriving DecidableEq, Repr

/-- Error taxonomy of the engine (spec §7): configuration errors and
state-sync errors are thrown by `run`; channel-closed, channel-lagged and
collaborator errors are raised inside task loops. In `src/engine.ts` the
configuration and sync errors are `Error` values with the quoted messages. -/
inductive EngineError
  | configuration (msg : String)
  | syncState (strategyName : String)
  | channelClosed
  | channelLagged
  | collaborator
  deriving DecidableEq, Repr

/-- Checks that an error belongs to the configuration class. -/
def EngineError.isConfiguration : EngineError → Bool
  | .configuration _ => true
  | _ => false

/-- Checks that an error is a strategy state-sync failure. -/
def EngineError.isSyncState : EngineError → Bool
  | .syncState _ => true
  | _ => false

/-! ## Supervised task loop (`Engine.runExecutor`, `src/engine.ts` lines 464-536)

One loop iteration awaits `receiver.next()`, runs the collaborator call,
and on a thrown error updates the consecutive-error count, possibly sleeps
for a backoff period, and possibly requests engine shutdown.  The executor,
strategy and collector loops share this structure verbatim; the executor
loop is the one embedded here.  An iteration's external behaviour is one
`IterEvent`. -/

/-- Outcome of the suspension point plus collaborator call of one loop
iteration: `value a ok` is `receiver.next()` yielding an item, with `ok`
telling whether `executor.execute` returns normally or throws; `done` is a
`result.done` stream end; the `err*` constructors are exceptions thrown out
of `receiver.next()` (`ChannelError` of type CLOSED or LAGGED, or any other
exception). -/
inductive IterEvent (A : Type)
  | value (a : A) (execOk : Bool)
  | done
  | errClosed
  | errLagged
  | errOther
  deriving DecidableEq, Repr

/-- Result of the try-block before the catch: loop break, or a processed
item. -/
inductive TryOut
  | brk
  | processed
  deriving DecidableEq, Repr

/-- Control decision of one iteration: continue looping or leave the loop. -/
inductive IterOut
  | cont
  | halt
  deriving DecidableEq, Repr

/-- Loop-local supervised state: consecutive-error count, current backoff,
the log of performed backoff sleeps, and whether this loop requested engine
shutdown (`src/engine.ts` lines 467-468 and 505-528). -/
structure ExecState where
  ce : Nat
  backoff : Nat
  sleeps : List Nat
  stopRequested : Bool
  deriving DecidableEq, Repr

/-- Initial loop state (`consecutiveErrors = 0`, `backoffMs =
initialBackoffMs`). -/
def initExecState (cfg : EngineConfig) : ExecState :=
  ⟨0, cfg.initialBackoffMs, [], false⟩

/-- Try-block of one iteration (`src/engine.ts` lines 472-486): `done`
breaks the loop, a successfully executed value is processed, every other
case throws.  A collaborator failure (`execute` throwing, or a
non-`ChannelError` from `next`) raises `collaborator`. -/
def execTryBody {A : Type} : IterEvent A → Except EngineError TryOut
  | .done => .ok .brk
  | .value _ true => .ok .processed
  | .value _ false => .error .collaborator
  | .errClosed => .error .channelClosed
  | .errLagged => .error .channelLagged
  | .errOther => .error .collaborator

/-- Success path (`src/engine.ts` lines 482-486): reset the error count and
backoff when any errors had accumulated. -/
def resetOnSuccess (cfg : EngineConfig) (s : ExecState) : ExecState :=
  if 0 < s.ce then { s with ce := 0, backoff := cfg.initialBackoffMs } else s

/-- Catch-block of one iteration (`src/engine.ts` lines 487-529): increment
the consecutive-error count; a CLOSED channel error breaks the loop at
once; otherwise, once the count exceeds `maxConsecutiveErrors`, double the
backoff capped at `maxBackoffMs` and sleep for it; and once the count
exceeds twice `maxConsecutiveErrors` with `stopOnCriticalError` set,
request engine shutdown and break.  The catch-block itself never rethrows. -/
def execCatch (cfg : EngineConfig) (s : ExecState) (e : EngineError) :
    ExecState × IterOut :=
  let s1 : ExecState := { s with ce := s.ce + 1 }
  match e with
  | .channelClosed => (s1, .halt)
  | _ =>
    let s2 : ExecState :=
      if cfg.maxConsecutiveErrors < s1.ce then
        let nb := min (s1.backoff * 2) cfg.maxBackoffMs
        { s1 with backoff := nb, sleeps := s1.sleeps ++ [nb] }
      else s1
    if cfg.stopOnCriticalError && cfg.maxConsecutiveErrors * 2 < s2.ce then
      ({ s2 with stopRequested := true }, .halt)
    else (s2, .cont)

/-- One full loop iteration: the try-block, with its thrown errors handed
to the catch-block. -/
def execIter {A : Type} (cfg : EngineConfig) (s : ExecState) (ev : IterEvent A) :
    ExecState × IterOut :=
  match execTryBody ev with
  | .ok .brk => (s, .halt)
  | .ok .processed => (resetOnSuccess cfg s, .cont)
  | .error e => execCatch cfg s e

/-- Reason the loop ended: the iteration script ran out (the `while
(this.running)` guard observed false), or the loop halted itself. -/
inductive LoopExit
  | ranOut
  | halted
  deriving DecidableEq, Repr

/-- The supervised loop over a finite script of iteration events
(`src/engine.ts` lines 471-530). -/
def execLoop {A : Type} (cfg : EngineConfig) (s : ExecState) :
    List (IterEvent A) → ExecState × LoopExit
  | [] => (s, .ranOut)
  | ev :: rest =>
    match execIter cfg s ev with
    | (s1, .halt) => (s1, .halted)
    | (s1, .cont) => execLoop cfg s1 rest

/-- The supervised loop in the exception monad: an error value here would
be an exception escaping the loop body to the caller.  The catch-block of
`src/engine.ts` lines 487-529 handles every exception of the try-block, so
each iteration is injected with `Except.ok`; an uncaught exception would
surface as `Except.error`. -/
def execLoopE {A : Type} (cfg : EngineConfig) (s : ExecState) :
    List (IterEvent A) → Except EngineError (ExecState × LoopExit)
  | [] => .ok (s, .ranOut)
  | ev :: rest =>
    match execTryBody ev with
    | .ok .brk => .ok (s, .halted)
    | .ok .processed => execLoopE cfg (resetOnSuccess cfg s) rest
    | .error e =>
      match execCatch cfg s e with
      | (s1, .halt) => .ok (s1, .halted)
      | (s1, .cont) => execLoopE cfg s1 rest

/-! ## Engine lifecycle (`Engine.run` / `Engine.stop`, `src/engine.ts`)

Participants are identified by their registration index; strategies also
carry the behaviour of their optional `syncState` hook. -/

/-- A registered strategy: its `name()` and its optional `syncState` hook.
`none` means the hook is absent; `some true` a hook that resolves; `some
false` a hook that throws (`src/engine.ts` lines 440-446). -/
structure StrategyDecl where
  sname : String
  syncState : Option Bool
  deriving DecidableEq, Repr

/-- One spawned supervised task loop, identified by the kind and
registration index of the participant it drives. -/
inductive TaskKind
  | executorTask (i : Nat)
  | strategyTask (i : Nat)
  | collectorTask (i : Nat)
  deriving DecidableEq, Repr

/-- Engine state (`src/engine.ts` fields): registered participants, the
running flag, the spawned task list, and the two channels.  A channel slot
is `none` when no channel object exists, `some true` when it is open and
`some false` when it has been closed. -/
structure Engine where
  executors : List String
  strategies : List StrategyDecl
  collectors : List String
  running : Bool
  tasks : List TaskKind
  eventChannel : Option Bool
  actionChannel : Option Bool
  deriving DecidableEq, Repr

/-- Strategy spawning phase of `Engine.run` (`src/engine.ts` lines
435-449): for each strategy in order, subscribe, call and await the
optional `syncState` hook, and only then push the strategy's task loop; a
throwing hook aborts `run` with a descriptive error, leaving the tasks
pushed so far in place. -/
def startStrategies : List StrategyDecl → Nat → Engine → Engine × Option EngineError
  | [], _, e => (e, none)
  | s :: rest, i, e =>
    if s.syncState = some false then
      (e, some (.syncState s.sname))
    else
      startStrategies rest (i + 1) { e with tasks := e.tasks ++ [.strategyTask i] }

/-- State of the engine right after the checks of `Engine.run` pass
(`src/engine.ts` lines 409-432): running flag set, both channels created,
task list reset and one executor loop spawned per registered executor. -/
def runStarted (e : Engine) : Engine :=
  { e with
    running := true
    eventChannel := some true
    actionChannel := some true
    tasks := (List.range e.executors.length).map TaskKind.executorTask }

/-- The `Engine.run` protocol (`src/engine.ts` lines 390-457): validate
that executors, collectors and strategies are all registered and that the
engine is not already running (each violation throws before any state is
touched); then move to the started state and spawn executor loops, strategy
loops (with `syncState` first) and collector loops, in that order.  Returns
the final engine state and either the spawned tasks or the thrown error. -/
def run (e : Engine) : Engine × Except EngineError (List TaskKind) :=
  if e.executors.length = 0 then (e, .error (.configuration "No executors"))
  else if e.collectors.length = 0 then (e, .error (.configuration "No collectors"))
  else if e.strategies.length = 0 then (e, .error (.configuration "No strategies"))
  else if e.running then (e, .error (.configuration "Engine is already running"))
  else
    match startStrategies e.strategies 0 (runStarted e) with
    | (e2, some err) => (e2, .error err)
    | (e2, none) =>
      ({ e2 with
          tasks := e2.tasks ++ (List.range e.collectors.length).map TaskKind.collectorTask },
       .ok (e2.tasks ++ (List.range e.collectors.length).map TaskKind.collectorTask))

/-- First action of a live `Engine.stop` (`src/engine.ts` line 305): clear
the running flag before anything else. -/
def clearRunning (e : Engine) : Engine :=
  { e with running := false }

/-- Channel-closing phase of `Engine.stop` (`src/engine.ts` lines
322-328): close whichever of the two channels exist. -/
def closeChannels (e : Engine) : Engine :=
  { e with
    eventChannel := e.eventChannel.map fun _ => false
    actionChannel := e.actionChannel.map fun _ => false }

/-- The `cleanupResources` method (`src/engine.ts` lines 369-373): drop the
channel references and the task list. -/
def cleanupResources (e : Engine) : Engine :=
  { e with eventChannel := none, actionChannel := none, tasks := [] }

/-- The `Engine.stop` protocol (`src/engine.ts` lines 297-364): return at
once if not running; otherwise clear the running flag, close both channels,
race task completion against the shutdown timeout — so the outcome does not
depend on whether the tasks voluntarily exit, which `tasksExited` records —
and clean up resources. -/
def stop (e : Engine) (tasksExited : Bool) : Engine :=
  if e.running = false then e
  else
    let e1 := clearRunning e
    let e2 := closeChannels e1
    let _ := tasksExited
    cleanupResources e2

/-! ## Broadcast channel (modelled from the spec)

The `BroadcastChannel` implementation imported by `src/engine.ts` is not
among the sources at hand, so this namespace is modelled from the
specification, §3 and §4.1. -/

namespace Chan

/-- Modelled from the spec: the per-subscription view of a broadcast
channel (spec §3 `Subscription<T>`): a bounded FIFO queue of undelivered
items, a lag counter incremented for every item dropped by the drop-oldest
overflow policy, and the sequence of items this subscription's consumer has
observed so far (the delivery history). -/
structure SubState (T : Type) where
  queue : List T
  lag : Nat
  received : List T
  deriving DecidableEq, Repr

/-- Modelled from the spec: a fresh subscription as produced by
`subscribe()` — empty queue, zero lag, nothing received. -/
def freshSub (T : Type) : SubState T := ⟨[], 0, []⟩

/-- Modelled from the spec: `send` offering one item to one subscription
(spec §4.1 `send`): append to the queue; if the queue now exceeds the
capacity, drop the oldest queued item and increment the lag counter.
Waking a blocked receiver directly is observationally the append followed
by an immediate `recvStep`. -/
def offerTo {T : Type} (cap : Nat) (s : SubState T) (t : T) : SubState T :=
  let q := s.queue ++ [t]
  if cap < q.length then
    { s with queue := q.tail, lag := s.lag + 1 }
  else
    { s with queue := q }

/-- Modelled from the spec: a consumer completing one `next()` call on its
subscription (spec §4.1 `next`): pop the oldest queued item, FIFO per
subscription.  With an empty queue on an open channel the call stays
suspended, which the trace semantics represents as a no-op. -/
def recvStep {T : Type} (s : SubState T) : SubState T :=
  match s.queue with
  | [] => s
  | t :: rest => { queue := rest, lag := s.lag, received := s.received ++ [t] }

/-- Modelled from the spec: one interleaving step on an open channel with
`K` live subscriptions: a producer sends an item, or subscription `i`'s
consumer completes a `next()` call. -/
inductive Act (K : Nat) (T : Type)
  | send (t : T)
  | recv (i : Fin K)

/-- Modelled from the spec: the state of an open channel with `K` live
subscriptions. -/
structure ChanState (K : Nat) (T : Type) where
  subs : Fin K → SubState T

/-- Modelled from the spec: the channel state in which all `K`
subscriptions are fresh. -/
def freshChan (K : Nat) (T : Type) : ChanState K T :=
  ⟨fun _ => freshSub T⟩

/-- Modelled from the spec: effect of one step — `send` offers the item to
every subscription independently, `recv i` advances only subscription `i`. -/
def chanStep {K : Nat} {T : Type} [DecidableEq (Fin K)] (cap : Nat)
    (st : ChanState K T) : Act K T → ChanState K T
  | .send t => ⟨fun j => offerTo cap (st.subs j) t⟩
  | .recv i => ⟨Function.update st.subs i (recvStep (st.subs i))⟩

/-- Modelled from the spec: run of a finite interleaving trace. -/
def chanRun {K : Nat} {T : Type} (cap : Nat) (st : ChanState K T) :
    List (Act K T) → ChanState K T
  | [] => st
  | a :: rest => chanRun cap (chanStep cap st a) rest

/-- Projection of a trace onto one subscription: the effect a trace has on
subscription `i` alone — sends offer to it, its own receives pop, other
subscriptions' receives are invisible to it. -/
def projStep {K : Nat} {T : Type} (cap : Nat) (i : Fin K) (s : SubState T) :
    Act K T → SubState T
  | .send t => offerTo cap s t
  | .recv j => if j = i then recvStep s else s

/-- Run of the single-subscription projection. -/
def projRun {K : Nat} {T : Type} (cap : Nat) (i : Fin K) (s : SubState T) :
    List (Act K T) → SubState T
  | [] => s
  | a :: rest => projRun cap i (projStep cap i s a) rest

/-- Items sent along a trace, in send order. -/
def sentItems {K : Nat} {T : Type} : List (Act K T) → List T
  | [] => []
  | .send t :: rest => t :: sentItems rest
  | .recv _ :: rest => sentItems rest

end Chan

/-! ## Block collectors (`src/unnamed/part_001`, `part_003`)

Block numbers in the sources are `bigint | null | undefined`; a block is
modelled as an identifier plus an optional number, absent covering both
`null` and `undefined`. -/

/-- A block as the collectors see it: an identifier (to tell blocks apart)
and its optional block number. -/
structure Blk where
  bid : Nat
  num : Option Nat
  deriving DecidableEq, Repr

/-- JavaScript `a > b` on possibly-absent numbers: a relational comparison
against `null`/`undefined`/`NaN` is false. -/
def jsGt : Option Nat → Option Nat → Bool
  | some a, some b => decide (b < a)
  | _, _ => false

/-- Filter of the WebSocket `onBlock` handler of
`BlockCollector.getEventStream` (`src/unnamed/part_001` lines 116-142):
skip a block without a number; deliver when no block has been delivered yet
or the number is greater than the last delivered one, updating the
last-number register. -/
def wsAccept (last : Option Nat) (b : Blk) : Bool × Option Nat :=
  match b.num with
  | none => (false, last)
  | some n =>
    match last with
    | none => (true, some n)
    | some l => if l < n then (true, some n) else (false, last)

/-- Filter of the worker's `sendBlock` (`src/unnamed/part_003` lines
33-50): skip a block whose number is `undefined` or `null`; otherwise send
when no block was sent yet or the number is greater than the last sent
one. -/
def sendBlockAccept (last : Option Nat) (b : Blk) : Bool × Option Nat :=
  match b.num with
  | none => (false, last)
  | some n =>
    match last with
    | none => (true, some n)
    | some l => if l < n then (true, some n) else (false, last)

/-- Filter of `BlockCollector.getPollingEventStream` (`src/unnamed/part_001`
lines 270-291): `lastBlockNumber === null || block.number > lastBlockNumber`
with no check that the block has a number.  The register distinguishes the
initial JavaScript `null` (`none`) from an assigned `block.number`
(`some b.num`, where `b.num` itself may be absent). -/
def pollAccept (last : Option (Option Nat)) (b : Blk) : Bool × Option (Option Nat) :=
  match last with
  | none => (true, some b.num)
  | some l => if jsGt b.num l then (true, some b.num) else (false, last)

/-- Run of a block filter over an incoming block sequence, collecting the
delivered blocks in order. -/
def runFilter {R : Type} (accept : R → Blk → Bool × R) (last : R) :
    List Blk → List Blk
  | [] => []
  | b :: rest =>
    match accept last b with
    | (true, l1) => b :: runFilter accept l1 rest
    | (false, l1) => runFilter accept l1 rest

/-! ## Buffered collector stream (`src/unnamed/part_001/2/4`)

`IntervalCollectorBun.getEventStream` (`part_004` lines 85-140),
`BlockCollectorBun.getEventStream` (`part_002` lines 204-259) and
`BlockCollector.getPollingEventStream` (`part_001` lines 322-377) share one
buffered async-iterator state machine: a queue of undelivered items, a list
of pending `next()` resolvers, and a `done` flag. -/

/-- State of the buffered collector stream: the buffered queue, the number
of `next()` calls currently suspended on an empty queue, and the `done`
flag. -/
structure StreamState (T : Type) where
  queue : List T
  pending : Nat
  done : Bool
  deriving DecidableEq, Repr

/-- Immediate outcome of a `next()` call: an item, an immediate
end-of-stream, or a registered pending resolver (the call suspends). -/
inductive NextOut (T : Type)
  | item (t : T)
  | endOfStream
  | suspended
  deriving DecidableEq, Repr

/-- The `next()` method shared by the three streams (`part_004` lines
114-133, `part_002` lines 233-252, `part_001` lines 351-370): when `done`,
return end-of-stream at once; else pop the oldest buffered item; else
suspend by pushing a resolver. -/
def streamNext {T : Type} (st : StreamState T) : NextOut T × StreamState T :=
  if st.done then (.endOfStream, st)
  else
    match st.queue with
    | t :: rest => (.item t, { st with queue := rest })
    | [] => (.suspended, { st with pending := st.pending + 1 })

/-- The explicit `cleanup` function invoked by the iterator's `return()`
(`part_004` lines 85-110, `part_002` lines 204-229, `part_001` lines
322-347): set `done`, resolve every pending `next()` with end-of-stream,
and clear the buffered queue.  The returned number counts the formerly
pending calls, each resolved with end-of-stream. -/
def streamCleanup {T : Type} (st : StreamState T) : StreamState T × Nat :=
  (⟨[], 0, true⟩, st.pending)

/-- The `onExit` handler run when the worker process exits (`part_004`
lines 70-81, `part_002` lines 185-200): set `done` and resolve every
pending `next()` with end-of-stream — the buffered queue is left as it
is.  The returned number counts the formerly pending calls, each resolved
with end-of-stream. -/
def streamOnExit {T : Type} (st : StreamState T) : StreamState T × Nat :=
  ({ st with pending := 0, done := true }, st.pending)

/-! ## Helper lemmas about the engine start-up phases -/

/-- Helper: when every hook resolves, the strategy phase appends one task
per strategy, in registration order. -/
theorem startStrategies_ok (ss : List StrategyDecl) :
    ∀ (i : Nat) (e : Engine), (∀ s ∈ ss, s.syncState ≠ some false) →
      startStrategies ss i e =
        ({ e with tasks :=
            e.tasks ++ (List.range ss.length).map fun j => TaskKind.strategyTask (i + j) },
         none) := by
  induction ss with
  | nil => intro i e _; simp [startStrategies]
  | cons s rest ih =>
    intro i e h
    have hs : ¬ (s.syncState = some false) := h s (List.mem_cons_self s rest)
    rw [startStrategies, if_neg hs,
      ih (i + 1) _ (fun s' hs' => h s' (List.mem_cons_of_mem s hs'))]
    have hmap : (List.range (rest.length + 1)).map (fun j => TaskKind.strategyTask (i + j)) =
        TaskKind.strategyTask i ::
          (List.range rest.length).map fun j => TaskKind.strategyTask (i + 1 + j) := by
      have hfun : ((fun j => TaskKind.strategyTask (i + j)) ∘ Nat.succ) =
          fun j => TaskKind.strategyTask (i + 1 + j) := by
        funext j
        simp only [Function.comp_apply]
        congr 1
        omega
      rw [List.range_succ_eq_map, List.map_cons, List.map_map, hfun]
      simp
    simp only [List.length_cons, hmap]
    congr 1
    simp [List.append_assoc]

/-- Helper: the strategy phase stops at the first strategy whose hook
throws, having appended exactly the tasks of the strategies before it. -/
theorem startStrategies_fail (pre : List StrategyDecl) :
    ∀ (s : StrategyDecl) (post : List StrategyDecl) (i : Nat) (e : Engine),
      (∀ s' ∈ pre, s'.syncState ≠ some false) → s.syncState = some false →
      startStrategies (pre ++ s :: post) i e =
        ({ e with tasks :=
            e.tasks ++ (List.range pre.length).map fun j => TaskKind.strategyTask (i + j) },
         some (.syncState s.sname)) := by
  induction pre with
  | nil =>
    intro s post i e _ hs
    simp [startStrategies, hs]
  | cons p rest ih =>
    intro s post i e hpre hs
    have hp : ¬ (p.syncState = some false) := hpre p (List.mem_cons_self p rest)
    rw [List.cons_append, startStrategies, if_neg hp,
      ih s post (i + 1) _ (fun s' hs' => hpre s' (List.mem_cons_of_mem p hs')) hs]
    have hmap : (List.range (rest.length + 1)).map (fun j => TaskKind.strategyTask (i + j)) =
        TaskKind.strategyTask i ::
          (List.range rest.length).map fun j => TaskKind.strategyTask (i + 1 + j) := by
      have hfun : ((fun j => TaskKind.strategyTask (i + j)) ∘ Nat.succ) =
          fun j => TaskKind.strategyTask (i + 1 + j) := by
        funext j
        simp only [Function.comp_apply]
        congr 1
        omega
      rw [List.range_succ_eq_map, List.map_cons, List.map_map, hfun]
      simp
    simp only [List.length_cons, hmap]
    congr 2
    simp [List.append_assoc]

/-! ## Claims about the engine lifecycle -/

/-- C2: `Engine.run` fails with a configuration error when zero executors,
zero collectors or zero strategies are registered, or when the engine is
already running, and in every such case the engine state is returned
unchanged — no task loop is started and no channel is created. -/
theorem run_fails_configuration (e : Engine)
    (h : e.executors.length = 0 ∨ e.collectors.length = 0 ∨
         e.strategies.length = 0 ∨ e.running = true) :
    ∃ msg, run e = (e, Except.error (EngineError.configuration msg)) := by
  by_cases h1 : e.executors.length = 0
  · exact ⟨"No executors", by simp [run, h1]⟩
  · by_cases h2 : e.collectors.length = 0
    · exact ⟨"No collectors", by simp [run, h1, h2]⟩
    · by_cases h3 : e.strategies.length = 0
      · exact ⟨"No strategies", by simp [run, h1, h2, h3]⟩
      · have h4 : e.running = true := by tauto
        exact ⟨"Engine is already running", by simp [run, h1, h2, h3, h4]⟩

/-- Witness for C2 at a concrete engine with no registered participants. -/
theorem run_fails_configuration_witness :
    (Engine.mk [] [] [] false [] none none).executors.length = 0 ∧
    ∃ msg, run (Engine.mk [] [] [] false [] none none) =
      (Engine.mk [] [] [] false [] none none, Except.error (EngineError.configuration msg)) :=
  ⟨rfl, run_fails_configuration _ (Or.inl rfl)⟩

/-- C5: when `Engine.run` succeeds it spawns exactly one supervised task
loop per registered participant, in the order: all executors first, then
all strategies, then all collectors. -/
theorem run_spawn_order (e : Engine)
    (hex : e.executors.length ≠ 0) (hco : e.collectors.length ≠ 0)
    (hst : e.strategies.length ≠ 0) (hr : e.running = false)
    (hsync : ∀ s ∈ e.strategies, s.syncState ≠ some false) :
    (run e).2 = Except.ok (
      (List.range e.executors.length).map TaskKind.executorTask ++
      ((List.range e.strategies.length).map TaskKind.strategyTask ++
       (List.range e.collectors.length).map TaskKind.collectorTask)) ∧
    (run e).1.tasks =
      (List.range e.executors.length).map TaskKind.executorTask ++
      ((List.range e.strategies.length).map TaskKind.strategyTask ++
       (List.range e.collectors.length).map TaskKind.collectorTask) := by
  have hrun : ¬ (e.running = true) := by simp [hr]
  rw [run, if_neg hex, if_neg hco, if_neg hst, if_neg hrun,
    startStrategies_ok e.strategies 0 (runStarted e) hsync]
  simp [runStarted, List.append_assoc]

/-- Witness for C5 at a concrete engine with one participant of each kind. -/
theorem run_spawn_order_witness :
    (run (Engine.mk ["ex0"] [StrategyDecl.mk "st0" none] ["co0"] false [] none none)).2 =
      Except.ok ((List.range 1).map TaskKind.executorTask ++
        ((List.range 1).map TaskKind.strategyTask ++
         (List.range 1).map TaskKind.collectorTask)) :=
  (run_spawn_order (Engine.mk ["ex0"] [StrategyDecl.mk "st0" none] ["co0"] false [] none none)
    (by decide) (by decide) (by decide) rfl (by decide)).1

/-- C6: for a strategy whose `syncState` hook throws (all earlier
strategies' hooks resolving), `Engine.run` fails with a state-sync error
naming that strategy, and no task loop is started for that strategy. -/
theorem run_syncState_gate (e : Engine) (pre post : List StrategyDecl) (s : StrategyDecl)
    (hsplit : e.strategies = pre ++ s :: post)
    (hex : e.executors.length ≠ 0) (hco : e.collectors.length ≠ 0)
    (hr : e.running = false)
    (hpre : ∀ s' ∈ pre, s'.syncState ≠ some false) (hs : s.syncState = some false) :
    (run e).2 = Except.error (EngineError.syncState s.sname) ∧
    TaskKind.strategyTask pre.length ∉ (run e).1.tasks := by
  have hst : e.strategies.length ≠ 0 := by rw [hsplit]; simp
  have hrun : ¬ (e.running = true) := by simp [hr]
  rw [run, if_neg hex, if_neg hco, if_neg hst, if_neg hrun, hsplit,
    startStrategies_fail pre s post 0 (runStarted e) hpre hs]
  refine ⟨rfl, ?_⟩
  intro hmem
  simp only [runStarted, List.mem_append, List.mem_map, List.mem_range] at hmem
  rcases hmem with ⟨j, _, hje⟩ | ⟨j, hj, hje⟩
  · exact TaskKind.noConfusion hje
  · simp only [TaskKind.strategyTask.injEq] at hje
    omega

/-- Witness for C6 at a concrete engine whose only strategy has a throwing
hook. -/
theorem run_syncState_gate_witness :
    (run (Engine.mk ["ex0"] [StrategyDecl.mk "bad" (some false)] ["co0"] false [] none none)).2 =
      Except.error (EngineError.syncState "bad") ∧
    TaskKind.strategyTask 0 ∉
      (run (Engine.mk ["ex0"] [StrategyDecl.mk "bad" (some false)] ["co0"] false [] none none)).1.tasks :=
  run_syncState_gate
    (Engine.mk ["ex0"] [StrategyDecl.mk "bad" (some false)] ["co0"] false [] none none)
    [] [] (StrategyDecl.mk "bad" (some false)) rfl
    (by decide) (by decide) rfl (by decide) rfl

/-- C4: `Engine.stop` leaves a non-running engine entirely unchanged; on a
running engine it clears the running flag first (so the flag is false in
the result), closes both channels before cleaning up, and its outcome does
not depend on whether the task loops voluntarily exit. -/
theorem stop_idempotent_and_bounded (e : Engine) (b b' : Bool) :
    (e.running = false → stop e b = e) ∧
    (e.running = true →
      stop e b = cleanupResources (closeChannels (clearRunning e)) ∧
      (clearRunning e).running = false ∧
      (stop e b).running = false ∧
      (closeChannels (clearRunning e)).eventChannel = e.eventChannel.map (fun _ => false) ∧
      (closeChannels (clearRunning e)).actionChannel = e.actionChannel.map (fun _ => false)) ∧
    stop e b = stop e b' := by
  refine ⟨fun h => by simp [stop, h], fun h => ?_, ?_⟩
  · refine ⟨by simp [stop, h], rfl, ?_, rfl, rfl⟩
    simp [stop, h, cleanupResources, closeChannels, clearRunning]
  · by_cases h : e.running = false <;> simp [stop, h]

/-- Witness for C4 at a concrete stopped engine and a concrete running
engine. -/
theorem stop_idempotent_and_bounded_witness :
    ((Engine.mk [] [] [] false [] none none).running = false ∧
     stop (Engine.mk [] [] [] false [] none none) true =
       Engine.mk [] [] [] false [] none none) ∧
    ((Engine.mk [] [] [] true [] (some true) (some true)).running = true ∧
     (stop (Engine.mk [] [] [] true [] (some true) (some true)) false).running = false) :=
  ⟨⟨rfl, (stop_idempotent_and_bounded (Engine.mk [] [] [] false [] none none) true true).1 rfl⟩,
   ⟨rfl, ((stop_idempotent_and_bounded
      (Engine.mk [] [] [] true [] (some true) (some true)) false false).2.1 rfl).2.2.1⟩⟩

/-! ## Helper lemmas about the supervised loop -/

/-- Helper: one loop step that continues. -/
theorem execLoop_cons_cont {A : Type} (cfg : EngineConfig) (s s1 : ExecState)
    (ev : IterEvent A) (rest : List (IterEvent A))
    (h : execIter cfg s ev = (s1, IterOut.cont)) :
    execLoop cfg s (ev :: rest) = execLoop cfg s1 rest := by
  rw [execLoop, h]

/-- Helper: one loop step that halts. -/
theorem execLoop_cons_halt {A : Type} (cfg : EngineConfig) (s s1 : ExecState)
    (ev : IterEvent A) (rest : List (IterEvent A))
    (h : execIter cfg s ev = (s1, IterOut.halt)) :
    execLoop cfg s (ev :: rest) = (s1, LoopExit.halted) := by
  rw [execLoop, h]

/-- Helper: an error while the consecutive-error count is still at or below
the threshold only increments the count — backoff unchanged, no sleep, no
shutdown request, loop continues. -/
theorem execCatch_below (cfg : EngineConfig) (s : ExecState) (err : EngineError)
    (hne : err ≠ .channelClosed) (hce : s.ce + 1 ≤ cfg.maxConsecutiveErrors) :
    execCatch cfg s err = ({ s with ce := s.ce + 1 }, IterOut.cont) := by
  have h1 : ¬ (cfg.maxConsecutiveErrors < s.ce + 1) := by omega
  have h2 : ¬ (cfg.maxConsecutiveErrors * 2 < s.ce + 1) := by omega
  cases err with
  | channelClosed => exact absurd rfl hne
  | configuration m => simp [execCatch, h1, h2]
  | syncState n => simp [execCatch, h1, h2]
  | channelLagged => simp [execCatch, h1, h2]
  | collaborator => simp [execCatch, h1, h2]

/-- Helper: a run of consecutive failures that keeps the error count at or
below the threshold only counts errors, then continues with the rest of the
script. -/
theorem execLoop_failures_below {A : Type} (cfg : EngineConfig) :
    ∀ (k : Nat) (s : ExecState) (tail : List (IterEvent A)),
      s.ce + k ≤ cfg.maxConsecutiveErrors →
      execLoop cfg s (List.replicate k IterEvent.errOther ++ tail) =
        execLoop cfg { s with ce := s.ce + k } tail := by
  intro k
  induction k with
  | zero => intro s tail _; simp [List.replicate]
  | succ n ih =>
    intro s tail h
    have hiter : execIter cfg s (IterEvent.errOther : IterEvent A) =
        ({ s with ce := s.ce + 1 }, IterOut.cont) :=
      execCatch_below cfg s .collaborator (by intro hc; cases hc) (by omega)
    rw [List.replicate_succ, List.cons_append, execLoop_cons_cont cfg _ _ _ _ hiter,
      ih { s with ce := s.ce + 1 } tail
        (show s.ce + 1 + n ≤ cfg.maxConsecutiveErrors by omega)]
    have : s.ce + 1 + n = s.ce + (n + 1) := by omega
    rw [this]

/-- Helper: the catch-block keeps the backoff within `maxBackoffMs`. -/
theorem execCatch_backoff_le (cfg : EngineConfig) (s : ExecState) (err : EngineError)
    (hs : s.backoff ≤ cfg.maxBackoffMs) :
    (execCatch cfg s err).1.backoff ≤ cfg.maxBackoffMs := by
  have hmin : min (s.backoff * 2) cfg.maxBackoffMs ≤ cfg.maxBackoffMs := Nat.min_le_right _ _
  cases err <;> simp [execCatch] <;> (try split_ifs) <;> simp [hs, hmin]

/-- Helper: one loop iteration keeps the backoff within `maxBackoffMs`. -/
theorem execIter_backoff_le {A : Type} (cfg : EngineConfig) (s : ExecState)
    (ev : IterEvent A) (hinit : cfg.initialBackoffMs ≤ cfg.maxBackoffMs)
    (hs : s.backoff ≤ cfg.maxBackoffMs) :
    (execIter cfg s ev).1.backoff ≤ cfg.maxBackoffMs := by
  cases ev with
  | done => simpa [execIter, execTryBody] using hs
  | value a ok =>
    cases ok with
    | false => exact execCatch_backoff_le cfg s .collaborator hs
    | true =>
      simp only [execIter, execTryBody, resetOnSuccess]
      split_ifs <;> simp [hs, hinit]
  | errClosed => exact execCatch_backoff_le cfg s .channelClosed hs
  | errLagged => exact execCatch_backoff_le cfg s .channelLagged hs
  | errOther => exact execCatch_backoff_le cfg s .collaborator hs

/-- Helper: the loop keeps the backoff within `maxBackoffMs` on every
script. -/
theorem execLoop_backoff_le {A : Type} (cfg : EngineConfig)
    (hinit : cfg.initialBackoffMs ≤ cfg.maxBackoffMs) :
    ∀ (script : List (IterEvent A)) (s : ExecState), s.backoff ≤ cfg.maxBackoffMs →
      (execLoop cfg s script).1.backoff ≤ cfg.maxBackoffMs := by
  intro script
  induction script with
  | nil => intro s hs; simpa [execLoop] using hs
  | cons ev rest ih =>
    intro s hs
    rcases hiter : execIter cfg s ev with ⟨s1, o⟩
    have h1 : s1.backoff ≤ cfg.maxBackoffMs := by
      have := execIter_backoff_le cfg s ev hinit hs
      rw [hiter] at this
      exact this
    cases o with
    | cont => rw [execLoop_cons_cont cfg _ _ _ _ hiter]; exact ih s1 h1
    | halt => rw [execLoop_cons_halt cfg _ _ _ _ hiter]; exact h1

/-- Helper: an error past the threshold doubles the backoff (capped at
`maxBackoffMs`) and sleeps for the new backoff. -/
theorem execCatch_escalates (cfg : EngineConfig) (s : ExecState) (err : EngineError)
    (hne : err ≠ .channelClosed) (hce : cfg.maxConsecutiveErrors < s.ce + 1) :
    (execCatch cfg s err).1.backoff = min (s.backoff * 2) cfg.maxBackoffMs ∧
    (execCatch cfg s err).1.sleeps = s.sleeps ++ [min (s.backoff * 2) cfg.maxBackoffMs] := by
  cases err with
  | channelClosed => exact absurd rfl hne
  | configuration m => simp [execCatch, hce]; split_ifs <;> simp
  | syncState n => simp [execCatch, hce]; split_ifs <;> simp
  | channelLagged => simp [execCatch, hce]; split_ifs <;> simp
  | collaborator => simp [execCatch, hce]; split_ifs <;> simp

/-! ## Claims about the supervised loop -/

/-- C3: the supervised loop's backoff state machine: (i) an error with the
consecutive-error count at or below `maxConsecutiveErrors` only counts — no
backoff escalation and no sleep; (ii) a loop failing exactly
`maxConsecutiveErrors - 1` times and then succeeding ends back in the
initial state, with backoff `initialBackoffMs` and an empty sleep log
(it never slept); (iii) each error past the threshold doubles the backoff
capped at `maxBackoffMs` and sleeps for the new value; (iv) on every script
the backoff never exceeds `maxBackoffMs`. -/
theorem supervised_backoff_machine (cfg : EngineConfig)
    (hinit : cfg.initialBackoffMs ≤ cfg.maxBackoffMs) :
    (∀ (s : ExecState) (err : EngineError), err ≠ .channelClosed →
        s.ce + 1 ≤ cfg.maxConsecutiveErrors →
        execCatch cfg s err = ({ s with ce := s.ce + 1 }, IterOut.cont)) ∧
    (execLoop cfg (initExecState cfg)
        (List.replicate (cfg.maxConsecutiveErrors - 1) IterEvent.errOther ++
          [IterEvent.value () true]) = (initExecState cfg, LoopExit.ranOut)) ∧
    (∀ (s : ExecState) (err : EngineError), err ≠ .channelClosed →
        cfg.maxConsecutiveErrors < s.ce + 1 →
        (execCatch cfg s err).1.backoff = min (s.backoff * 2) cfg.maxBackoffMs ∧
        (execCatch cfg s err).1.sleeps =
          s.sleeps ++ [min (s.backoff * 2) cfg.maxBackoffMs]) ∧
    (∀ script : List (IterEvent Unit),
        (execLoop cfg (initExecState cfg) script).1.backoff ≤ cfg.maxBackoffMs) := by
  refine ⟨execCatch_below cfg, ?_, execCatch_escalates cfg, ?_⟩
  · rw [execLoop_failures_below cfg (cfg.maxConsecutiveErrors - 1) (initExecState cfg) _
      (show (initExecState cfg).ce + (cfg.maxConsecutiveErrors - 1) ≤
        cfg.maxConsecutiveErrors by simp only [initExecState]; omega)]
    have hiter : execIter cfg
        { initExecState cfg with ce := (initExecState cfg).ce + (cfg.maxConsecutiveErrors - 1) }
        (IterEvent.value () true) =
        (initExecState cfg, IterOut.cont) := by
      by_cases h0 : 0 < cfg.maxConsecutiveErrors - 1
      · show (resetOnSuccess cfg _, IterOut.cont) = _
        rw [resetOnSuccess, if_pos (show 0 < _ by simpa [initExecState] using h0)]
        simp [initExecState]
      · have h1 : cfg.maxConsecutiveErrors - 1 = 0 := by omega
        show (resetOnSuccess cfg _, IterOut.cont) = _
        rw [resetOnSuccess, if_neg (show ¬ 0 < _ by simp [initExecState, h1])]
        simp [initExecState, h1]
    rw [execLoop_cons_cont cfg _ _ _ _ hiter]
    rfl
  · intro script
    exact execLoop_backoff_le cfg hinit script (initExecState cfg)
      (by simpa [initExecState] using hinit)

/-- Witness for C3 at a concrete configuration. -/
theorem supervised_backoff_machine_witness :
    (100 : Nat) ≤ 30000 ∧
    execLoop (EngineConfig.mk 3 100 30000 false) (initExecState (EngineConfig.mk 3 100 30000 false))
        (List.replicate 2 IterEvent.errOther ++ [IterEvent.value () true]) =
      (initExecState (EngineConfig.mk 3 100 30000 false), LoopExit.ranOut) :=
  ⟨by decide, (supervised_backoff_machine (EngineConfig.mk 3 100 30000 false) (by decide)).2.1⟩

/-- Helper: the loop in the exception monad never yields an error value —
the catch-block consumes every exception of the try-block. -/
theorem execLoopE_ok {A : Type} (cfg : EngineConfig) :
    ∀ (script : List (IterEvent A)) (s : ExecState),
      ∃ r, execLoopE cfg s script = Except.ok r := by
  intro script
  induction script with
  | nil => intro s; exact ⟨(s, .ranOut), rfl⟩
  | cons ev rest ih =>
    intro s
    cases htb : execTryBody (ev : IterEvent A) with
    | ok t =>
      cases t with
      | brk => exact ⟨(s, .halted), by rw [execLoopE, htb]⟩
      | processed =>
        obtain ⟨r, hr⟩ := ih (resetOnSuccess cfg s)
        exact ⟨r, by rw [execLoopE, htb]; exact hr⟩
    | error e =>
      rcases hc : execCatch cfg s e with ⟨s1, o⟩
      cases o with
      | cont =>
        obtain ⟨r, hr⟩ := ih s1
        exact ⟨r, by simp only [execLoopE, htb, hc]; exact hr⟩
      | halt => exact ⟨(s1, .halted), by simp only [execLoopE, htb, hc]⟩

/-- Helper: a throwing strategy-phase only ever reports a state-sync
error. -/
theorem startStrategies_error_isSync :
    ∀ (ss : List StrategyDecl) (i : Nat) (e e' : Engine) (err : EngineError),
      startStrategies ss i e = (e', some err) → err.isSyncState = true := by
  intro ss
  induction ss with
  | nil => intro i e e' err h; simp [startStrategies] at h
  | cons s rest ih =>
    intro i e e' err h
    rw [startStrategies] at h
    by_cases hs : s.syncState = some false
    · rw [if_pos hs] at h
      injection h with h1 h2
      injection h2 with h3
      rw [← h3]
      rfl
    · rw [if_neg hs] at h
      exact ih _ _ _ _ h

/-- Helper: every error thrown out of `Engine.run` is a configuration
error or a state-sync error. -/
theorem run_error_class (e : Engine) (err : EngineError)
    (h : (run e).2 = Except.error err) :
    err.isConfiguration = true ∨ err.isSyncState = true := by
  rw [run] at h
  by_cases h1 : e.executors.length = 0
  · rw [if_pos h1] at h
    simp only at h
    injection h with h'
    rw [← h']
    left
    rfl
  · rw [if_neg h1] at h
    by_cases h2 : e.collectors.length = 0
    · rw [if_pos h2] at h
      simp only at h
      injection h with h'
      rw [← h']
      left
      rfl
    · rw [if_neg h2] at h
      by_cases h3 : e.strategies.length = 0
      · rw [if_pos h3] at h
        simp only at h
        injection h with h'
        rw [← h']
        left
        rfl
      · rw [if_neg h3] at h
        by_cases h4 : e.running = true
        · rw [if_pos h4] at h
          simp only at h
          injection h with h'
          rw [← h']
          left
          rfl
        · rw [if_neg h4] at h
          rcases hss : startStrategies e.strategies 0 (runStarted e) with ⟨e2, oerr⟩
          rw [hss] at h
          cases oerr with
          | none => simp at h
          | some err2 =>
            simp only at h
            injection h with h'
            rw [← h']
            right
            exact startStrategies_error_isSync e.strategies 0 (runStarted e) e2 err2 hss

/-- C7: collaborator errors raised inside a supervised task loop never
escape the loop — in the exception monad the loop always returns a normal
result — and every error propagating out of `Engine.run` is a
configuration error or a state-sync error. -/
theorem collaborator_errors_confined (cfg : EngineConfig) :
    (∀ (script : List (IterEvent Unit)) (s : ExecState),
        ∃ r, execLoopE cfg s script = Except.ok r) ∧
    (∀ (e : Engine) (err : EngineError), (run e).2 = Except.error err →
        err.isConfiguration = true ∨ err.isSyncState = true) :=
  ⟨fun script s => execLoopE_ok cfg script s, fun e err h => run_error_class e err h⟩

/-- Witness for C7 at a concrete failing script and a concrete
misconfigured engine. -/
theorem collaborator_errors_confined_witness :
    (∃ r, execLoopE (EngineConfig.mk 3 100 30000 false) (initExecState (EngineConfig.mk 3 100 30000 false))
        [IterEvent.errOther, IterEvent.value () false, IterEvent.value () true] = Except.ok r) ∧
    ((run (Engine.mk [] [] [] false [] none none)).2 =
        Except.error (EngineError.configuration "No executors") ∧
     ((EngineError.configuration "No executors").isConfiguration = true ∨
      (EngineError.configuration "No executors").isSyncState = true)) :=
  ⟨(collaborator_errors_confined (EngineConfig.mk 3 100 30000 false)).1 _ _,
   rfl,
   (collaborator_errors_confined (EngineConfig.mk 3 100 30000 false)).2
     (Engine.mk [] [] [] false [] none none) (EngineError.configuration "No executors") rfl⟩

/-- Helper: with `stopOnCriticalError` unset, the catch-block never
requests shutdown and always continues on a non-closed error. -/
theorem execCatch_no_critical (cfg : EngineConfig) (hcfg : cfg.stopOnCriticalError = false)
    (s : ExecState) (err : EngineError) (hne : err ≠ .channelClosed) :
    (execCatch cfg s err).2 = IterOut.cont ∧
    (execCatch cfg s err).1.stopRequested = s.stopRequested := by
  cases err <;> first
    | exact absurd rfl hne
    | (simp [execCatch, hcfg]; split_ifs <;> simp)

/-- Helper: with `stopOnCriticalError` unset, one iteration preserves the
shutdown-request flag. -/
theorem execIter_no_critical {A : Type} (cfg : EngineConfig)
    (hcfg : cfg.stopOnCriticalError = false) (s : ExecState) (ev : IterEvent A) :
    (execIter cfg s ev).1.stopRequested = s.stopRequested := by
  cases ev with
  | done => rfl
  | value a ok =>
    cases ok with
    | false => exact (execCatch_no_critical cfg hcfg s .collaborator (by intro hc; cases hc)).2
    | true =>
      simp only [execIter, execTryBody, resetOnSuccess]
      split_ifs <;> rfl
  | errClosed => rfl
  | errLagged => exact (execCatch_no_critical cfg hcfg s .channelLagged (by intro hc; cases hc)).2
  | errOther => exact (execCatch_no_critical cfg hcfg s .collaborator (by intro hc; cases hc)).2

/-- Helper: with `stopOnCriticalError` unset, no run of the loop ever sets
the shutdown-request flag. -/
theorem execLoop_no_critical {A : Type} (cfg : EngineConfig)
    (hcfg : cfg.stopOnCriticalError = false) :
    ∀ (script : List (IterEvent A)) (s : ExecState), s.stopRequested = false →
      (execLoop cfg s script).1.stopRequested = false := by
  intro script
  induction script with
  | nil => intro s hs; simpa [execLoop] using hs
  | cons ev rest ih =>
    intro s hs
    rcases hiter : execIter cfg s ev with ⟨s1, o⟩
    have h1 : s1.stopRequested = false := by
      have := execIter_no_critical cfg hcfg s ev
      rw [hiter] at this
      rw [this]
      exact hs
    cases o with
    | cont => rw [execLoop_cons_cont cfg _ _ _ _ hiter]; exact ih s1 h1
    | halt => rw [execLoop_cons_halt cfg _ _ _ _ hiter]; exact h1

/-- C8: with `stopOnCriticalError` set, any non-closed error that pushes
the consecutive-error count beyond twice `maxConsecutiveErrors` makes the
loop request full engine shutdown and exit; without that configuration the
loop keeps retrying (every non-closed error continues the loop) and never
requests shutdown on any script. -/
theorem critical_error_shutdown (cfg : EngineConfig) :
    (cfg.stopOnCriticalError = true →
      ∀ (s : ExecState) (err : EngineError), err ≠ .channelClosed →
        cfg.maxConsecutiveErrors * 2 < s.ce + 1 →
        (execCatch cfg s err).2 = IterOut.halt ∧
        (execCatch cfg s err).1.stopRequested = true) ∧
    (cfg.stopOnCriticalError = false →
      (∀ (s : ExecState) (err : EngineError), err ≠ .channelClosed →
          (execCatch cfg s err).2 = IterOut.cont) ∧
      (∀ (script : List (IterEvent Unit)) (s : ExecState), s.stopRequested = false →
          (execLoop cfg s script).1.stopRequested = false)) := by
  constructor
  · intro hcfg s err hne hce
    cases err <;> first
      | exact absurd rfl hne
      | (simp only [execCatch, hcfg]; split_ifs with hesc hstop <;> simp_all)
  · intro hcfg
    exact ⟨fun s err hne => (execCatch_no_critical cfg hcfg s err hne).1,
      execLoop_no_critical cfg hcfg⟩

/-- Witness for C8 at concrete configurations with the flag set and
unset. -/
theorem critical_error_shutdown_witness :
    ((execCatch (EngineConfig.mk 2 100 30000 true) (ExecState.mk 4 100 [] false)
        EngineError.collaborator).2 = IterOut.halt ∧
     (execCatch (EngineConfig.mk 2 100 30000 true) (ExecState.mk 4 100 [] false)
        EngineError.collaborator).1.stopRequested = true) ∧
    (execLoop (EngineConfig.mk 2 100 30000 false) (ExecState.mk 0 100 [] false)
        ([IterEvent.errOther, IterEvent.errOther] : List (IterEvent Unit))).1.stopRequested =
      false :=
  ⟨(critical_error_shutdown (EngineConfig.mk 2 100 30000 true)).1 rfl
      (ExecState.mk 4 100 [] false) EngineError.collaborator (by decide) (by decide),
   ((critical_error_shutdown (EngineConfig.mk 2 100 30000 false)).2 rfl).2
      [IterEvent.errOther, IterEvent.errOther] (ExecState.mk 0 100 [] false) rfl⟩

/-! ## Helper lemmas about the block filters -/

/-- Helper: the WebSocket filter delivers only numbered blocks, each
greater than the incoming lower bound, and the delivered numbers are
strictly increasing. -/
theorem runFilter_ws_spec (bs : List Blk) :
    ∀ last : Option Nat,
      (∀ x ∈ runFilter wsAccept last bs, ∃ n, x.num = some n ∧
          ∀ l, last = some l → l < n) ∧
      List.Pairwise (· < ·) ((runFilter wsAccept last bs).filterMap Blk.num) := by
  induction bs with
  | nil =>
    intro last
    refine ⟨fun x hx => ?_, by simp [runFilter]⟩
    simp [runFilter] at hx
  | cons b rest ih =>
    intro last
    cases hb : b.num with
    | none =>
      have hacc : wsAccept last b = (false, last) := by simp [wsAccept, hb]
      simp only [runFilter, hacc]
      exact ih last
    | some n =>
      cases last with
      | none =>
        have hacc : wsAccept none b = (true, some n) := by simp [wsAccept, hb]
        simp only [runFilter, hacc]
        obtain ⟨ihA, ihB⟩ := ih (some n)
        refine ⟨fun x hx => ?_, ?_⟩
        · rcases List.mem_cons.mp hx with hx | hx
          · subst hx
            exact ⟨n, hb, fun l hl => by cases hl⟩
          · obtain ⟨m, hm, _⟩ := ihA x hx
            exact ⟨m, hm, fun l hl => by cases hl⟩
        · rw [List.filterMap_cons_some hb]
          refine List.pairwise_cons.mpr ⟨fun m hm => ?_, ihB⟩
          obtain ⟨x, hx, hxm⟩ := List.mem_filterMap.mp hm
          obtain ⟨m2, hm2, hbound⟩ := ihA x hx
          rw [hm2] at hxm
          injection hxm with hxm
          rw [← hxm]
          exact hbound n rfl
      | some l =>
        by_cases hlt : l < n
        · have hacc : wsAccept (some l) b = (true, some n) := by
            simp [wsAccept, hb, hlt]
          simp only [runFilter, hacc]
          obtain ⟨ihA, ihB⟩ := ih (some n)
          refine ⟨fun x hx => ?_, ?_⟩
          · rcases List.mem_cons.mp hx with hx | hx
            · subst hx
              exact ⟨n, hb, fun l0 hl0 => by injection hl0 with h; rw [← h]; exact hlt⟩
            · obtain ⟨m, hm, hbound⟩ := ihA x hx
              refine ⟨m, hm, fun l0 hl0 => ?_⟩
              injection hl0 with h
              have := hbound n rfl
              omega
          · rw [List.filterMap_cons_some hb]
            refine List.pairwise_cons.mpr ⟨fun m hm => ?_, ihB⟩
            obtain ⟨x, hx, hxm⟩ := List.mem_filterMap.mp hm
            obtain ⟨m2, hm2, hbound⟩ := ihA x hx
            rw [hm2] at hxm
            injection hxm with hxm
            rw [← hxm]
            exact hbound n rfl
        · have hacc : wsAccept (some l) b = (false, some l) := by
            simp [wsAccept, hb, hlt]
          simp only [runFilter, hacc]
          exact ih (some l)

/-- Helper: the worker's `sendBlock` filter coincides with the WebSocket
filter (both skip numberless blocks and require a strictly greater
number). -/
theorem sendBlockAccept_eq_wsAccept : sendBlockAccept = wsAccept := rfl

/-- Helper: on inputs whose blocks all carry numbers, the polling filter
delivers only numbered blocks above the bound, strictly increasing. -/
theorem runFilter_poll_spec (bs : List Blk) :
    ∀ last : Option (Option Nat), (∀ b ∈ bs, b.num ≠ none) →
      (last = none ∨ ∃ l, last = some (some l)) →
      (∀ x ∈ runFilter pollAccept last bs, ∃ n, x.num = some n ∧
          ∀ l, last = some (some l) → l < n) ∧
      List.Pairwise (· < ·) ((runFilter pollAccept last bs).filterMap Blk.num) := by
  induction bs with
  | nil =>
    intro last _ _
    refine ⟨fun x hx => ?_, by simp [runFilter]⟩
    simp [runFilter] at hx
  | cons b rest ih =>
    intro last hnum hinv
    obtain ⟨n, hb⟩ : ∃ n, b.num = some n := by
      cases hbn : b.num with
      | none => exact absurd hbn (hnum b (List.mem_cons_self b rest))
      | some n => exact ⟨n, rfl⟩
    have hnumr : ∀ x ∈ rest, x.num ≠ none := fun x hx => hnum x (List.mem_cons_of_mem b hx)
    rcases hinv with hl | ⟨l, hl⟩
    · subst hl
      have hacc : pollAccept none b = (true, some b.num) := by simp [pollAccept]
      simp only [runFilter, hacc]
      obtain ⟨ihA, ihB⟩ := ih (some b.num) hnumr (Or.inr ⟨n, by rw [hb]⟩)
      refine ⟨fun x hx => ?_, ?_⟩
      · rcases List.mem_cons.mp hx with hx | hx
        · subst hx
          exact ⟨n, hb, fun l0 hl0 => by cases hl0⟩
        · obtain ⟨m, hm, _⟩ := ihA x hx
          exact ⟨m, hm, fun l0 hl0 => by cases hl0⟩
      · rw [List.filterMap_cons_some hb]
        refine List.pairwise_cons.mpr ⟨fun m hm => ?_, ihB⟩
        obtain ⟨x, hx, hxm⟩ := List.mem_filterMap.mp hm
        obtain ⟨m2, hm2, hbound⟩ := ihA x hx
        rw [hm2] at hxm
        injection hxm with hxm
        rw [← hxm]
        exact hbound n (by rw [hb])
    · subst hl
      by_cases hlt : l < n
      · have hacc : pollAccept (some (some l)) b = (true, some b.num) := by
          simp [pollAccept, jsGt, hb, hlt]
        simp only [runFilter, hacc]
        obtain ⟨ihA, ihB⟩ := ih (some b.num) hnumr (Or.inr ⟨n, by rw [hb]⟩)
        refine ⟨fun x hx => ?_, ?_⟩
        · rcases List.mem_cons.mp hx with hx | hx
          · subst hx
            exact ⟨n, hb, fun l0 hl0 => by injection hl0 with h; injection h with h; omega⟩
          · obtain ⟨m, hm, hbound⟩ := ihA x hx
            refine ⟨m, hm, fun l0 hl0 => ?_⟩
            injection hl0 with h
            injection h with h
            have := hbound n (by rw [hb])
            omega
        · rw [List.filterMap_cons_some hb]
          refine List.pairwise_cons.mpr ⟨fun m hm => ?_, ihB⟩
          obtain ⟨x, hx, hxm⟩ := List.mem_filterMap.mp hm
          obtain ⟨m2, hm2, hbound⟩ := ihA x hx
          rw [hm2] at hxm
          injection hxm with hxm
          rw [← hxm]
          exact hbound n (by rw [hb])
      · have hacc : pollAccept (some (some l)) b = (false, some (some l)) := by
          simp [pollAccept, jsGt, hb, hlt]
        simp only [runFilter, hacc]
        exact ih (some (some l)) hnumr (Or.inr ⟨l, rfl⟩)

/-! ## Claims about the block collectors -/

/-- C9 counterexample: the HTTP polling path of
`BlockCollector.getPollingEventStream` delivers a first block without a
number (and afterwards skips every numbered block), contradicting the
claim that a numberless block is always silently skipped. -/
theorem polling_delivers_numberless_block :
    Blk.mk 0 none ∈ runFilter pollAccept none [Blk.mk 0 none, Blk.mk 1 (some 5)] ∧
    Blk.mk 1 (some 5) ∉ runFilter pollAccept none [Blk.mk 0 none, Blk.mk 1 (some 5)] := by
  decide

/-- C9 (amended): the WebSocket subscription path and the worker's
`sendBlock` deliver only numbered blocks with strictly increasing numbers,
skipping numberless and non-increasing blocks; the HTTP polling path lacks
the numberless guard, but on inputs whose blocks all carry numbers it too
delivers a strictly increasing sequence. -/
theorem block_streams_increasing (input : List Blk) :
    ((∀ x ∈ runFilter wsAccept none input, x.num ≠ none) ∧
     List.Pairwise (· < ·) ((runFilter wsAccept none input).filterMap Blk.num)) ∧
    ((∀ x ∈ runFilter sendBlockAccept none input, x.num ≠ none) ∧
     List.Pairwise (· < ·) ((runFilter sendBlockAccept none input).filterMap Blk.num)) ∧
    ((∀ b ∈ input, b.num ≠ none) →
      (∀ x ∈ runFilter pollAccept none input, x.num ≠ none) ∧
      List.Pairwise (· < ·) ((runFilter pollAccept none input).filterMap Blk.num)) := by
  obtain ⟨wsA, wsB⟩ := runFilter_ws_spec input none
  refine ⟨⟨fun x hx => ?_, wsB⟩, ⟨fun x hx => ?_, ?_⟩, fun hnum => ?_⟩
  · obtain ⟨n, hn, _⟩ := wsA x hx
    simp [hn]
  · rw [sendBlockAccept_eq_wsAccept] at hx
    obtain ⟨n, hn, _⟩ := wsA x hx
    simp [hn]
  · rw [sendBlockAccept_eq_wsAccept]
    exact wsB
  · obtain ⟨pA, pB⟩ := runFilter_poll_spec input none hnum (Or.inl rfl)
    refine ⟨fun x hx => ?_, pB⟩
    obtain ⟨n, hn, _⟩ := pA x hx
    simp [hn]

/-- Witness for C9 at a concrete block sequence with an out-of-order
block. -/
theorem block_streams_increasing_witness :
    (∀ b ∈ [Blk.mk 0 (some 5), Blk.mk 1 (some 3), Blk.mk 2 (some 7)], b.num ≠ none) ∧
    List.Pairwise (· < ·)
      ((runFilter pollAccept none
        [Blk.mk 0 (some 5), Blk.mk 1 (some 3), Blk.mk 2 (some 7)]).filterMap Blk.num) :=
  ⟨by decide,
   ((block_streams_increasing
      [Blk.mk 0 (some 5), Blk.mk 1 (some 3), Blk.mk 2 (some 7)]).2.2 (by decide)).2⟩

/-! ## Claims about the buffered collector stream -/

/-- C10 counterexample: the worker-exit handler (`onExit`) does not empty
the buffered queue, contradicting the claim that after any cleanup the
buffered queue is emptied. -/
theorem onExit_leaves_queue :
    (streamOnExit (StreamState.mk [42] 0 false)).1.queue ≠ ([] : List Nat) := by
  decide

/-- C10 (amended): after either cleanup path every pending `next()` is
resolved with end-of-stream and every later `next()` returns end-of-stream
immediately, leaving the state unchanged, so no buffered item is ever
delivered after cleanup; the explicit `return()` cleanup additionally
empties the buffered queue, the worker-exit handler leaves the queue in
place. -/
theorem stream_cleanup_end_of_stream {T : Type} (st : StreamState T) :
    ((streamCleanup st).2 = st.pending ∧
     (streamCleanup st).1.queue = [] ∧
     (streamCleanup st).1.pending = 0 ∧
     (streamCleanup st).1.done = true ∧
     streamNext (streamCleanup st).1 = (NextOut.endOfStream, (streamCleanup st).1)) ∧
    ((streamOnExit st).2 = st.pending ∧
     (streamOnExit st).1.queue = st.queue ∧
     (streamOnExit st).1.pending = 0 ∧
     (streamOnExit st).1.done = true ∧
     streamNext (streamOnExit st).1 = (NextOut.endOfStream, (streamOnExit st).1)) ∧
    (∀ st' : StreamState T, st'.done = true →
      streamNext st' = (NextOut.endOfStream, st')) := by
  refine ⟨⟨rfl, rfl, rfl, rfl, rfl⟩, ⟨rfl, rfl, rfl, rfl, rfl⟩, fun st' h => ?_⟩
  simp [streamNext, h]

/-- Witness for C10 at a concrete stream state with a buffered item and a
pending call. -/
theorem stream_cleanup_end_of_stream_witness :
    (StreamState.mk ([7] : List Nat) 2 true).done = true ∧
    streamNext (StreamState.mk ([7] : List Nat) 2 true) =
      (NextOut.endOfStream, StreamState.mk ([7] : List Nat) 2 true) :=
  ⟨rfl, (stream_cleanup_end_of_stream (StreamState.mk ([7] : List Nat) 2 true)).2.2
    (StreamState.mk ([7] : List Nat) 2 true) rfl⟩

/-! ## Helper lemmas about the broadcast channel model -/

/-- Helper (independence): the state of one subscription after a trace is
exactly the run of the trace's projection onto that subscription — other
subscriptions' receives do not affect it. -/
theorem chanRun_proj {K : Nat} {T : Type} (cap : Nat) :
    ∀ (tr : List (Chan.Act K T)) (st : Chan.ChanState K T) (i : Fin K),
      (Chan.chanRun cap st tr).subs i = Chan.projRun cap i (st.subs i) tr := by
  intro tr
  induction tr with
  | nil => intro st i; rfl
  | cons a rest ih =>
    intro st i
    rw [Chan.chanRun, Chan.projRun, ih]
    congr 1
    cases a with
    | send t => rfl
    | recv j =>
      by_cases hji : j = i
      · subst hji
        simp [Chan.chanStep, Chan.projStep]
      · have hij : ¬ i = j := fun h => hji h.symm
        simp [Chan.chanStep, Chan.projStep, hji, Function.update_apply, hij]

/-- Helper: one projected step never decreases the lag counter. -/
theorem projStep_lag_le {K : Nat} {T : Type} (cap : Nat) (i : Fin K)
    (s : Chan.SubState T) (a : Chan.Act K T) :
    s.lag ≤ (Chan.projStep cap i s a).lag := by
  cases a with
  | send t =>
    simp only [Chan.projStep, Chan.offerTo]
    split_ifs <;> simp
  | recv j =>
    simp only [Chan.projStep]
    split_ifs with h
    · cases hq : s.queue <;> simp [Chan.recvStep, hq]
    · exact Nat.le_refl _

/-- Helper: a projected run never decreases the lag counter. -/
theorem projRun_lag_le {K : Nat} {T : Type} (cap : Nat) (i : Fin K) :
    ∀ (tr : List (Chan.Act K T)) (s : Chan.SubState T),
      s.lag ≤ (Chan.projRun cap i s tr).lag := by
  intro tr
  induction tr with
  | nil => intro s; exact Nat.le_refl _
  | cons a rest ih =>
    intro s
    rw [Chan.projRun]
    exact Nat.le_trans (projStep_lag_le cap i s a) (ih _)

/-- Helper (per-subscription FIFO): when a projected run drops nothing
(final lag equals initial lag), the items received so far followed by the
still-queued items are the initial backlog followed by every item sent
along the trace, in send order. -/
theorem projRun_fifo {K : Nat} {T : Type} (cap : Nat) (i : Fin K) :
    ∀ (tr : List (Chan.Act K T)) (s : Chan.SubState T),
      (Chan.projRun cap i s tr).lag = s.lag →
      (Chan.projRun cap i s tr).received ++ (Chan.projRun cap i s tr).queue =
        s.received ++ s.queue ++ Chan.sentItems tr := by
  intro tr
  induction tr with
  | nil => intro s _; simp [Chan.projRun, Chan.sentItems]
  | cons a rest ih =>
    intro s h
    cases a with
    | send t =>
      by_cases hcap : cap < s.queue.length + 1
      · exfalso
        rw [Chan.projRun] at h
        have h1 : (Chan.projStep cap i s (Chan.Act.send t)).lag = s.lag + 1 := by
          simp [Chan.projStep, Chan.offerTo, hcap]
        have h2 := projRun_lag_le cap i rest (Chan.projStep cap i s (Chan.Act.send t))
        omega
      · have hstep : Chan.projStep cap i s (Chan.Act.send t) =
            { s with queue := s.queue ++ [t] } := by
          simp [Chan.projStep, Chan.offerTo, hcap]
        rw [Chan.projRun, hstep] at h ⊢
        rw [ih _ h]
        simp [Chan.sentItems, List.append_assoc]
    | recv j =>
      by_cases hji : j = i
      · subst hji
        obtain ⟨q, lg, rc⟩ := s
        cases q with
        | nil =>
          have hstep : Chan.projStep cap j (Chan.SubState.mk [] lg rc) (Chan.Act.recv j) =
              Chan.SubState.mk [] lg rc := by
            simp [Chan.projStep, Chan.recvStep]
          rw [Chan.projRun, hstep] at h ⊢
          rw [ih _ h]
          simp [Chan.sentItems]
        | cons t q1 =>
          have hstep : Chan.projStep cap j (Chan.SubState.mk (t :: q1) lg rc) (Chan.Act.recv j) =
              Chan.SubState.mk q1 lg (rc ++ [t]) := by
            simp [Chan.projStep, Chan.recvStep]
          rw [Chan.projRun, hstep] at h ⊢
          rw [ih _ h]
          simp [Chan.sentItems, List.append_assoc]
      · have hstep : Chan.projStep cap i s (Chan.Act.recv j) = s := by
          simp [Chan.projStep, hji]
        rw [Chan.projRun, hstep] at h ⊢
        rw [ih _ h]
        simp [Chan.sentItems]

/-- Helper: a subscription of a fresh channel that never lagged and has
fully drained its queue has received exactly the sent items, in send
order. -/
theorem chanRun_received {K : Nat} {T : Type} (cap : Nat)
    (tr : List (Chan.Act K T)) (i : Fin K)
    (hlag : ((Chan.chanRun cap (Chan.freshChan K T) tr).subs i).lag = 0)
    (hq : ((Chan.chanRun cap (Chan.freshChan K T) tr).subs i).queue = []) :
    ((Chan.chanRun cap (Chan.freshChan K T) tr).subs i).received = Chan.sentItems tr := by
  rw [chanRun_proj cap tr _ i] at hlag hq ⊢
  have hff := projRun_fifo cap i tr ((Chan.freshChan K T).subs i)
    (by rw [hlag]; rfl)
  rw [hq, List.append_nil] at hff
  simpa [Chan.freshChan, Chan.freshSub] using hff

/-! ## Claims about the broadcast channel -/

/-- C1 counterexample: under the drop-oldest overflow policy (capacity 1),
a subscription that only consumes after two sends observes `[2]`, not the
full send sequence `[1, 2]` — so the unconditional claim fails for slow
subscribers. -/
theorem broadcast_drop_overflow_counterexample :
    ((Chan.chanRun 1 (Chan.freshChan 1 Nat)
        ([Chan.Act.send 1, Chan.Act.send 2, Chan.Act.recv 0, Chan.Act.recv 0] :
          List (Chan.Act 1 Nat))).subs 0).received ≠
      Chan.sentItems
        ([Chan.Act.send 1, Chan.Act.send 2, Chan.Act.recv 0, Chan.Act.recv 0] :
          List (Chan.Act 1 Nat)) := by
  decide

/-- C1 (amended): over any interleaving of sends and receives on an open
channel, every subscription that never lagged and has drained its queue
has observed exactly the sent items in send order — independently of how
the other subscriptions consumed — and any two such subscriptions (for
example two executors on the same action channel) observed identical
sequences. -/
theorem broadcastChannel_fifo_identical (K cap : Nat) (T : Type)
    (tr : List (Chan.Act K T)) (i j : Fin K)
    (hilag : ((Chan.chanRun cap (Chan.freshChan K T) tr).subs i).lag = 0)
    (hiq : ((Chan.chanRun cap (Chan.freshChan K T) tr).subs i).queue = [])
    (hjlag : ((Chan.chanRun cap (Chan.freshChan K T) tr).subs j).lag = 0)
    (hjq : ((Chan.chanRun cap (Chan.freshChan K T) tr).subs j).queue = []) :
    ((Chan.chanRun cap (Chan.freshChan K T) tr).subs i).received = Chan.sentItems tr ∧
    ((Chan.chanRun cap (Chan.freshChan K T) tr).subs i).received =
      ((Chan.chanRun cap (Chan.freshChan K T) tr).subs j).received := by
  have hi := chanRun_received cap tr i hilag hiq
  have hj := chanRun_received cap tr j hjlag hjq
  exact ⟨hi, by rw [hi, hj]⟩

/-- Witness for C1 at a concrete two-subscriber trace in which both
subscribers drain. -/
theorem broadcastChannel_fifo_identical_witness :
    (((Chan.chanRun 2 (Chan.freshChan 2 Nat)
        [Chan.Act.send 5, Chan.Act.send 6, Chan.Act.recv 0, Chan.Act.recv 0,
         Chan.Act.recv 1, Chan.Act.recv 1]).subs 0).lag = 0 ∧
     ((Chan.chanRun 2 (Chan.freshChan 2 Nat)
        [Chan.Act.send 5, Chan.Act.send 6, Chan.Act.recv 0, Chan.Act.recv 0,
         Chan.Act.recv 1, Chan.Act.recv 1]).subs 0).queue = []) ∧
    ((Chan.chanRun 2 (Chan.freshChan 2 Nat)
        [Chan.Act.send 5, Chan.Act.send 6, Chan.Act.recv 0, Chan.Act.recv 0,
         Chan.Act.recv 1, Chan.Act.recv 1]).subs 0).received =
      Chan.sentItems
        ([Chan.Act.send 5, Chan.Act.send 6, Chan.Act.recv 0, Chan.Act.recv 0,
          Chan.Act.recv 1, Chan.Act.recv 1] : List (Chan.Act 2 Nat)) ∧
    ((Chan.chanRun 2 (Chan.freshChan 2 Nat)
        [Chan.Act.send 5, Chan.Act.send 6, Chan.Act.recv 0, Chan.Act.recv 0,
         Chan.Act.recv 1, Chan.Act.recv 1]).subs 0).received =
      ((Chan.chanRun 2 (Chan.freshChan 2 Nat)
        [Chan.Act.send 5, Chan.Act.send 6, Chan.Act.recv 0, Chan.Act.recv 0,
         Chan.Act.recv 1, Chan.Act.recv 1]).subs 1).received :=
  ⟨⟨by decide, by decide⟩,
   broadcastChannel_fifo_identical 2 2 Nat
     ([Chan.Act.send 5, Chan.Act.send 6, Chan.Act.recv 0, Chan.Act.recv 0,
       Chan.Act.recv 1, Chan.Act.recv 1] : List (Chan.Act 2 Nat)) 0 1
     (by decide) (by decide) (by decide) (by decide)⟩

end Frogberry
